import Mathlib

/-!
Verification development for the distributed caching proxy fleet
(origin / proxy nodes / load balancer).

The Python sources are shallowly embedded: every stateful method becomes a
pure Lean function taking and returning the relevant state, Python `None`
and JSON documents are modelled by the `Json` type below, wall-clock time is
passed explicitly as a rational parameter, and Python exceptions are modelled
with `Except PyError`.
-/

namespace DistProxy

/-- JSON values as produced by `json.loads` / consumed by `json.dumps`.
Python `None` is `Json.null`.  Numbers are modelled as rationals (Python
ints and floats; the claims only ever compare them).  Objects are modelled as
association lists; parsed objects have distinct keys (`json.loads` keeps the
last duplicate), so `List.lookup` agrees with Python dict lookup. -/
inductive Json where
  | null
  | bool (b : Bool)
  | num (q : ℚ)
  | str (s : String)
  | arr (elems : List Json)
  | obj (fields : List (String × Json))

/-- Python truthiness of a JSON value (`if x:`): `None`, `False`, `0`, `""`,
`[]` and `\x7b\x7d` are falsy, everything else truthy. -/
def Json.truthy : Json → Bool
  | .null => false
  | .bool b => b
  | .num q => q != 0
  | .str s => s != ""
  | .arr elems => !elems.isEmpty
  | .obj fields => !fields.isEmpty

/-- Python exceptions that the embedded code can raise. -/
inductive PyError where
  | keyError (key : String)
  | typeError
  | zeroDivisionError
  | valueError (msg : String)
  deriving DecidableEq

/-- `str(e)` for the exceptions whose text the code sends back to clients
(only `ValueError` messages are ever observed, in `BAD_REQUEST` payloads). -/
def PyError.text : PyError → String
  | .valueError msg => msg
  | .keyError key => key
  | .typeError => "TypeError"
  | .zeroDivisionError => "integer division or modulo by zero"

/-- Python subscript `j[k]` on a parsed JSON value: succeeds only on an
object containing the key; `KeyError` on an object without it, `TypeError`
on any non-object (list/str/number/bool/None). -/
def Json.subscript : Json → String → Except PyError Json
  | .obj fields, k =>
      match fields.lookup k with
      | some v => .ok v
      | none => .error (.keyError k)
  | _, _ => .error .typeError

/-- Python `k in j` for a parsed JSON object (only ever reached on dicts in
the embedded code paths). -/
def Json.hasKey : Json → String → Bool
  | .obj fields, k => (fields.lookup k).isSome
  | _, _ => false

/-! ## `src/proxy/metrics.py` — `ProxyMetrics` -/

/-- The metrics counter state of one proxy node (`ProxyMetrics.__init__`).
`start_time` holds the ISO-formatted start timestamp as an opaque string. -/
structure ProxyMetrics where
  total_requests : Nat
  cache_hits : Nat
  cache_misses : Nat
  origin_fetches : Nat
  start_time : String
  deriving DecidableEq

/-- Fresh counter state: all counters zero, given start timestamp. -/
def ProxyMetrics.init (t : String) : ProxyMetrics :=
  ⟨0, 0, 0, 0, t⟩

/-- `ProxyMetrics.record_request`. -/
def ProxyMetrics.record_request (m : ProxyMetrics) : ProxyMetrics :=
  { m with total_requests := m.total_requests + 1 }

/-- `ProxyMetrics.record_hit`. -/
def ProxyMetrics.record_hit (m : ProxyMetrics) : ProxyMetrics :=
  { m with cache_hits := m.cache_hits + 1 }

/-- `ProxyMetrics.record_miss`. -/
def ProxyMetrics.record_miss (m : ProxyMetrics) : ProxyMetrics :=
  { m with cache_misses := m.cache_misses + 1 }

/-- `ProxyMetrics.record_origin_fetch`. -/
def ProxyMetrics.record_origin_fetch (m : ProxyMetrics) : ProxyMetrics :=
  { m with origin_fetches := m.origin_fetches + 1 }

/-- `ProxyMetrics.report`: the returned dict, field order as in the source.
`hit_rate` is `cache_hits / (cache_hits + cache_misses)` with `0` for an
empty denominator.  Note the source exports the hit and miss counters under
the keys `"hits"` and `"misses"`. -/
def ProxyMetrics.report (m : ProxyMetrics) : List (String × Json) :=
  let total : Nat := m.cache_hits + m.cache_misses
  let hit_rate : ℚ := if total = 0 then 0 else (m.cache_hits : ℚ) / (total : ℚ)
  [("start_time", .str m.start_time),
   ("total_requests", .num (m.total_requests : ℚ)),
   ("hit_rate", .num hit_rate),
   ("hits", .num (m.cache_hits : ℚ)),
   ("misses", .num (m.cache_misses : ℚ)),
   ("origin_fetches", .num (m.origin_fetches : ℚ))]

/-! ## `src/proxy/cache_utils.py`

Both caches key their `store` dict by the cache-key string.  A Python dict
with insertion order is modelled as an association list with unique keys;
`List.lookup` is dict lookup. -/

/-- Remove the first binding of `k` (Python `dict.pop(k, None)`; under the
caches' key-uniqueness invariant the first binding is the only one). -/
def eraseKey : List (String × α) → String → List (String × α)
  | [], _ => []
  | p :: rest, k => if k == p.1 then rest else p :: eraseKey rest k

/-- `store[k] = v`: replace the binding of `k` in place if present, else
append it (Python dict insertion order). -/
def writeKey : List (String × α) → String → α → List (String × α)
  | [], k, v => [(k, v)]
  | p :: rest, k, v => if k == p.1 then (k, v) :: rest else p :: writeKey rest k v

/-- `TTLCache`: key ↦ (value, absolute expiry timestamp).  Timestamps are
rationals (seconds); `datetime.now()` is passed explicitly to `get`/`set`. -/
structure TTLCache where
  ttl : ℚ
  store : List (String × (Json × ℚ))

/-- `TTLCache.__init__(ttl)`. -/
def TTLCache.init (ttl : ℚ) : TTLCache := ⟨ttl, []⟩

/-- `Cache.size`. -/
def TTLCache.size (c : TTLCache) : Nat := c.store.length

/-- `TTLCache.delete`. -/
def TTLCache.delete (c : TTLCache) (key : String) : TTLCache :=
  ⟨c.ttl, eraseKey c.store key⟩

/-- `TTLCache.get` at current time `now`: missing key `(None, False)`;
expired (`now > exp`) removes the entry and returns `(None, False)`; else
`(value, True)`. -/
def TTLCache.get (c : TTLCache) (now : ℚ) (key : String) :
    (Json × Bool) × TTLCache :=
  match c.store.lookup key with
  | none => ((.null, false), c)
  | some (value, exp) =>
      if now > exp then ((.null, false), c.delete key)
      else ((value, true), c)

/-- `TTLCache.set` at current time `now`: stores `(value, now + ttl)`. -/
def TTLCache.set (c : TTLCache) (now : ℚ) (key : String) (value : Json) :
    TTLCache :=
  ⟨c.ttl, writeKey c.store key (value, now + c.ttl)⟩

/-- `LRUCache`: the doubly linked list with sentinel head/tail plus the
key ↦ node dict of the source are modelled as one association list in
recency order — least recently used first (`head.next`), most recently used
last (`tail.prev`); the source keeps list and dict in lock-step. -/
structure LRUCache where
  capacity : Nat
  entries : List (String × Json)

/-- `LRUCache.__init__(capacity)`. -/
def LRUCache.init (capacity : Nat) : LRUCache := ⟨capacity, []⟩

/-- `Cache.size`. -/
def LRUCache.size (c : LRUCache) : Nat := c.entries.length

/-- `LRUCache.get`: on a present key `_delete` the node, `_add_to_end`
(promote to most recently used) and return `(value, True)`; on an absent key
return `(None, False)`. -/
def LRUCache.get (c : LRUCache) (key : String) : (Json × Bool) × LRUCache :=
  match c.entries.lookup key with
  | none => ((.null, false), c)
  | some value =>
      ((value, true), ⟨c.capacity, eraseKey c.entries key ++ [(key, value)]⟩)

/-- `LRUCache.set`: update-or-insert the key at the most-recently-used end,
then if `size() > capacity` evict `head.next`, the least recently used
entry (the front of the list). -/
def LRUCache.set (c : LRUCache) (key : String) (value : Json) : LRUCache :=
  let moved := eraseKey c.entries key ++ [(key, value)]
  if moved.length > c.capacity then ⟨c.capacity, moved.tail⟩
  else ⟨c.capacity, moved⟩

/-- One cache operation of the LRU interface. -/
inductive LRUOp where
  | get (key : String)
  | set (key : String) (value : Json)

/-- The state reached after one operation (`get` discards the returned
pair, keeping the promoted cache). -/
def LRUCache.apply (c : LRUCache) : LRUOp → LRUCache
  | .get key => (c.get key).2
  | .set key value => c.set key value

/-- The state reached after a finite sequence of operations. -/
def LRUCache.run (c : LRUCache) : List LRUOp → LRUCache
  | [] => c
  | op :: ops => (c.apply op).run ops

/-! ## `src/proxy/proxy_node.py` -/

/-- Helper for `pySplit`: split a character list at every occurrence of
`c`, `acc` holding the (reversed) current segment. -/
def splitChAux (c : Char) : List Char → List Char → List String
  | [], acc => [String.mk acc.reverse]
  | x :: xs, acc =>
      if x = c then String.mk acc.reverse :: splitChAux c xs []
      else splitChAux c xs (x :: acc)

/-- Python `s.split(sep)` for a one-character separator (the source only
splits on `" "` and `"/"`): segments between every occurrence of the
separator, keeping empty segments — `"".split(c) = [""]`. -/
def pySplit (s : String) (c : Char) : List String :=
  splitChAux c s.data []

/-- Join segments back with a one-character separator (inverse of
`pySplit`, used for `maxsplit = 1`). -/
def joinSep (c : Char) : List String → String
  | [] => ""
  | [x] => x
  | x :: y :: xs => x ++ String.singleton c ++ joinSep c (y :: xs)

/-- Python `s.split(sep, 1)` (maxsplit = 1) for a one-character
separator: at most one split, at the first occurrence. -/
def pySplitOnce (s : String) (c : Char) : List String :=
  match pySplit s c with
  | [] => []
  | x :: rest =>
      if rest.isEmpty then [x] else [x, joinSep c rest]

/-- Tuple unpacking `a, b = l` of a list of strings: `ValueError` (with
CPython's message) unless the list has exactly two elements. -/
def pyUnpack2 : List String → Except PyError (String × String)
  | [a, b] => .ok (a, b)
  | l =>
      if l.length < 2 then
        .error (.valueError
          ("not enough values to unpack (expected 2, got " ++ toString l.length ++ ")"))
      else
        .error (.valueError "too many values to unpack (expected 2)")

/-- What the origin connection yielded, as observed by `fetch_from_origin`:
the connect failed; `readline` returned `""`; the line did not parse as
JSON; or it parsed to the JSON value `j`. -/
inductive OriginReply where
  | connectFail
  | emptyLine
  | parseFail
  | parsed (j : Json)

/-- `ProxyNode.fetch_from_origin`, as a function of the origin's reply.
Connection failure, empty reply and parse failure return
`(None, "ORIGIN_FAILURE")`; a parsed reply is inspected via `res["status"]`
(which raises `TypeError`/`KeyError` on non-objects or objects without the
key — only `json.loads` is inside the inner `try`). -/
def fetch_from_origin : OriginReply → Except PyError (Json × String)
  | .connectFail => .ok (.null, "ORIGIN_FAILURE")
  | .emptyLine => .ok (.null, "ORIGIN_FAILURE")
  | .parseFail => .ok (.null, "ORIGIN_FAILURE")
  | .parsed res => do
      let status ← res.subscript "status"
      match status with
      | .str s =>
          if s = "OK" then do
            let d ← res.subscript "data"
            pure (d, "OK")
          else if s = "NOT_FOUND" then
            pure (.null, "NOT_FOUND")
          else
            pure (.null, "ORIGIN_FAILURE")
      | _ => pure (.null, "ORIGIN_FAILURE")

/-- `ProxyNode.build_response`: the JSON object serialized to the client
(the trailing `json.dumps … + "\n"` serialization is applied where the wire
string matters). -/
def build_response (port : Nat) (status : String) (data : Json)
    (cache_hit : Bool) : Json :=
  .obj [("status", .str status), ("data", data),
        ("cache_hit", .bool cache_hit), ("node", .num (port : ℚ))]

/-- `ProxyNode.build_cache_key`. -/
def build_cache_key (resource : String) (key : String) : String :=
  resource ++ "/" ++ key

/-- The cache engine interface the proxy node uses (`self.cache`), over an
abstract cache-state type: `get` returns `(value, found)` plus the possibly
mutated cache, `set` stores unconditionally.  `TTLCache` (at a fixed
current time) and `LRUCache` both implement it. -/
structure CacheOps (σ : Type) where
  get : σ → String → (Json × Bool) × σ
  set : σ → String → Json → σ

/-- `ProxyNode.handle_connection` on one request, as a function of the
already-decoded and stripped request line `data` and of the origin's reply
on a miss.  Returns the final metrics counters, the final cache state, and
either the JSON response sent to the client or the uncaught exception that
escaped the handler (the parsing `try` block ends before the counters are
touched, so exceptions from the fetch are not turned into responses). -/
def handle_connection {σ : Type} (ops : CacheOps σ) (port : Nat)
    (m : ProxyMetrics) (cache : σ) (data : String) (reply : OriginReply) :
    ProxyMetrics × σ × Except PyError Json :=
  if data = "METRICS" then
    (m, cache, .ok (.obj [("status", .str "OK"), ("data", .obj m.report)]))
  else
    match pyUnpack2 (pySplit data ' ') with
    | .error e => (m, cache, .ok (build_response port "BAD_REQUEST" (.str e.text) false))
    | .ok (method, url) =>
      if method ≠ "GET" then
        (m, cache, .ok (build_response port ("WRONG_METHOD: " ++ method) (.str "") false))
      else
        match pyUnpack2 (pySplitOnce url '/') with
        | .error e => (m, cache, .ok (build_response port "BAD_REQUEST" (.str e.text) false))
        | .ok (resource, key) =>
          let cache_key := build_cache_key resource key
          let m1 := m.record_request
          let gr := ops.get cache cache_key
          if gr.1.2 then
            (m1.record_hit, gr.2, .ok (build_response port "OK" gr.1.1 true))
          else
            let m2 := m1.record_miss.record_origin_fetch
            match fetch_from_origin reply with
            | .error e => (m2, gr.2, .error e)
            | .ok (value, status) =>
                let cache2 := if status = "OK" then ops.set gr.2 cache_key value else gr.2
                (m2, cache2, .ok (build_response port status value false))

/-! ## `src/load_balancer/node_manager.py` -/

/-- A proxy node address `(host, port)`. -/
abbrev Node := String × Nat

/-- One health record: `\x7b"healthy": …, "failures": …\x7d`. -/
structure NodeState where
  healthy : Bool
  failures : Nat
  deriving DecidableEq

/-- `NodeManager` state.  The Python `nodes` dict holds exactly the
configured keys (touching others raises `KeyError`); it is modelled as a
total function — the embedded callers only touch configured nodes. -/
structure NodeManager where
  proxy_list : List Node
  nodes : Node → NodeState
  max_failures : Nat

/-- `NodeManager.__init__`: every node starts healthy with zero failures;
`max_failures = 3`. -/
def NodeManager.init (pl : List Node) : NodeManager :=
  ⟨pl, fun _ => ⟨true, 0⟩, 3⟩

/-- `NodeManager.mark_healthy`. -/
def NodeManager.mark_healthy (nm : NodeManager) (n : Node) : NodeManager :=
  { nm with nodes := fun x => if x = n then ⟨true, 0⟩ else nm.nodes x }

/-- `NodeManager.mark_unhealthy`: increment `failures`; if the new count
reaches `max_failures`, set `healthy` to `False` (otherwise `healthy` is
left as it was). -/
def NodeManager.mark_unhealthy (nm : NodeManager) (n : Node) : NodeManager :=
  { nm with nodes := fun x =>
      if x = n then
        ⟨if (nm.nodes n).failures + 1 ≥ nm.max_failures then false
          else (nm.nodes n).healthy,
         (nm.nodes n).failures + 1⟩
      else nm.nodes x }

/-- `NodeManager.is_healthy`. -/
def NodeManager.is_healthy (nm : NodeManager) (n : Node) : Bool :=
  (nm.nodes n).healthy

/-- `NodeManager.get_healthy_nodes`: the healthy sublist of the configured
list, or the full configured list when that sublist is empty. -/
def NodeManager.get_healthy_nodes (nm : NodeManager) : List Node :=
  let healthy_nodes := nm.proxy_list.filter (fun x => (nm.nodes x).healthy)
  if healthy_nodes.isEmpty then nm.proxy_list else healthy_nodes

/-- One call into the health registry. -/
inductive HealthOp where
  | mark_healthy (n : Node)
  | mark_unhealthy (n : Node)

/-- Apply one health-registry call. -/
def NodeManager.applyOp (nm : NodeManager) : HealthOp → NodeManager
  | .mark_healthy n => nm.mark_healthy n
  | .mark_unhealthy n => nm.mark_unhealthy n

/-- Apply a finite sequence of health-registry calls. -/
def NodeManager.run (nm : NodeManager) : List HealthOp → NodeManager
  | [] => nm
  | op :: ops => (nm.applyOp op).run ops

/-! ## `json.dumps` (wire serialization) -/

/-- Zero-padded four-digit lowercase hex, for `\uXXXX` escapes. -/
def hex4 (n : Nat) : String :=
  let ds := (Nat.toDigits 16 n).asString
  (String.mk (List.replicate (4 - ds.length) '0')) ++ ds

/-- `json.dumps` escaping of one character (default `ensure_ascii=True`):
quote, backslash and the common control characters get two-character
escapes, other control and all non-ASCII characters become `\uXXXX`
(surrogate pairs above U+FFFF). -/
def jsonEscapeChar (c : Char) : String :=
  if c = '"' then "\\\""
  else if c = '\\' then "\\\\"
  else if c = '\n' then "\\n"
  else if c = '\r' then "\\r"
  else if c = '\t' then "\\t"
  else if c.toNat < 0x20 || c.toNat > 0x7e then
    if c.toNat ≤ 0xffff then "\\u" ++ hex4 c.toNat
    else
      let m := c.toNat - 0x10000
      "\\u" ++ hex4 (0xd800 + m / 0x400) ++ "\\u" ++ hex4 (0xdc00 + m % 0x400)
  else String.singleton c

/-- `json.dumps` escaping of a string body. -/
def jsonEscape (s : String) : String :=
  String.join (s.data.map jsonEscapeChar)

/-- `json.dumps` with its default separators `", "` and `": "`.  Integers
print in decimal; the textual form of non-integer rationals (Python float
repr) is abstracted as `num/den` — no claim inspects it. -/
def Json.dumps : Json → String
  | .null => "null"
  | .bool true => "true"
  | .bool false => "false"
  | .num q =>
      if q.den = 1 then toString q.num
      else toString q.num ++ "/" ++ toString q.den
  | .str s => "\"" ++ jsonEscape s ++ "\""
  | .arr elems =>
      "[" ++ String.intercalate ", " (elems.attach.map (fun e => Json.dumps e.1)) ++ "]"
  | .obj fields =>
      "\x7b" ++
        String.intercalate ", "
          (fields.attach.map (fun p => "\"" ++ jsonEscape p.1.1 ++ "\": " ++ Json.dumps p.1.2)) ++
      "\x7d"
decreasing_by
  · have h := List.sizeOf_lt_of_mem e.2
    simp_wf
    omega
  · obtain ⟨⟨a, b⟩, hp⟩ := p
    have h := List.sizeOf_lt_of_mem hp
    simp [Prod.mk.sizeOf_spec] at h
    simp_wf
    omega

/-- Python `str.strip()` (no arguments): drop leading and trailing
whitespace.  Implemented structurally over the character list so that it
evaluates by `rfl`/`decide`. -/
def pyStrip (s : String) : String :=
  String.mk
    (((s.data.dropWhile Char.isWhitespace).reverse.dropWhile Char.isWhitespace).reverse)

/-! ## `src/load_balancer/load_balancer.py` -/

/-- `LoadBalancer` state: the configured proxy list, the health registry,
the last-known metrics snapshot per proxy (`None` = null slot), the
round-robin cursor and the strategy string. -/
structure LoadBalancer where
  proxy_list : List Node
  node_manager : NodeManager
  proxy_stats : Node → Option Json
  current_index : Nat
  strategy : String

/-- `LoadBalancer.__init__` (the metrics thread is modelled separately by
`metrics_cycle`): every stats slot starts as `None`. -/
def LoadBalancer.init (pl : List Node) (strategy : String) : LoadBalancer :=
  ⟨pl, NodeManager.init pl, fun _ => none, 0, strategy⟩

/-- The `least_loaded` key function
`lambda client: self.proxy_stats[client]["total_requests"] if
self.proxy_stats[client] else 0`: a falsy slot (None or an empty dict)
counts as load 0, otherwise the snapshot is subscripted (which can raise).
Metrics snapshots carry numeric `total_requests`; a non-numeric value would
fail in Python's comparison and is modelled as `TypeError`. -/
def loadKey (stats : Node → Option Json) (client : Node) : Except PyError ℚ :=
  match stats client with
  | none => .ok 0
  | some j =>
      if j.truthy then
        match j.subscript "total_requests" with
        | .ok (.num q) => .ok q
        | .ok _ => .error .typeError
        | .error e => .error e
      else .ok 0

/-- Tail of Python's `min(iterable, key=…)`: keep the current best (the
earliest seen) unless a strictly smaller key appears. -/
def pyMinGo (key : α → Except PyError ℚ) (best : α) (bestKey : ℚ) :
    List α → Except PyError α
  | [] => .ok best
  | x :: xs =>
      match key x with
      | .error e => .error e
      | .ok kx =>
          if kx < bestKey then pyMinGo key x kx xs else pyMinGo key best bestKey xs

/-- Python `min(iterable, key=…)`: `ValueError` on an empty iterable, else
the first element attaining the minimal key. -/
def pyMin (key : α → Except PyError ℚ) : List α → Except PyError α
  | [] => .error (.valueError "min() arg is an empty sequence")
  | x :: xs =>
      match key x with
      | .error e => .error e
      | .ok kx => pyMinGo key x kx xs

/-- `LoadBalancer.pick_proxy`.  Round-robin indexes
`current_index % len(healthy_proxies)` — `ZeroDivisionError` when the list
is empty; least-loaded calls `min` — `ValueError` when it is empty.  Only
an unrecognized strategy falls off the end and returns `None`. -/
def LoadBalancer.pick_proxy (lb : LoadBalancer) :
    Except PyError (Option Node × LoadBalancer) :=
  let hp := lb.node_manager.get_healthy_nodes
  let healthy_proxies := if hp.isEmpty then lb.proxy_list else hp
  if lb.strategy = "round_robin" then
    match healthy_proxies with
    | [] => .error .zeroDivisionError
    | x :: xs =>
        let proxy := (x :: xs).get
          ⟨lb.current_index % (xs.length + 1), Nat.mod_lt _ (Nat.succ_pos xs.length)⟩
        .ok (some proxy, { lb with current_index := lb.current_index + 1 })
  else if lb.strategy = "least_loaded" then
    match pyMin (loadKey lb.proxy_stats) healthy_proxies with
    | .error e => .error e
    | .ok p => .ok (some p, lb)
  else
    .ok (none, lb)

/-- What the selected proxy's connection yielded, as observed by
`forward_request`: the connect raised (with `str(e)` = `err`); `readline`
returned a non-empty first line; or it returned `""` (EOF). -/
inductive ForwardReply where
  | connectFail (err : String)
  | line (s : String)
  | eof

/-- Python truthiness of a `str`-or-`None` value. -/
def pyTruthyStr : Option String → Bool
  | none => false
  | some s => s != ""

/-- `LoadBalancer.forward_request`, as a function of the proxy's reply and
of the JSON parser `loads` (whose error message is `str(e)`).  Returns the
string result (`None` never occurs — every path returns) and the updated
health registry. -/
def forward_request (loads : String → Except String Json) (nm : NodeManager)
    (proxy : Node) (reply : ForwardReply) : Option String × NodeManager :=
  match reply with
  | .connectFail err =>
      (some (Json.dumps (.obj [("status", .str "PROXY_UNREACHABLE"), ("data", .str err)]) ++ "\n"),
       nm.mark_unhealthy proxy)
  | .line s =>
      let j_string := pyStrip s
      match loads j_string with
      | .error e =>
          (some (Json.dumps (.obj [("status", .str "PROXY_UNREACHABLE"), ("data", .str e)]) ++ "\n"),
           nm.mark_unhealthy proxy)
      | .ok _ => (some (j_string ++ "\n"), nm.mark_healthy proxy)
  | .eof =>
      (some (Json.dumps (.obj [("status", .str "PROXY_UNREACHABLE"), ("data", .null)]) ++ "\n"),
       nm.mark_unhealthy proxy)

/-- `LoadBalancer.handle_client` on one received request (already decoded;
`data.strip()` is `pyStrip`): the METRICS view, or pick-forward-relay.
`replies` gives each proxy's answer to the forwarded request line.  Returns
the bytes sent to the client and the updated balancer state, or the
uncaught exception that escaped the handler thread. -/
def LoadBalancer.handle_client (loads : String → Except String Json)
    (lb : LoadBalancer) (data : String)
    (replies : String → Node → ForwardReply) :
    Except PyError (String × LoadBalancer) :=
  let decoded := pyStrip data
  if decoded = "METRICS" then
    let proxies : List (String × Json) := lb.proxy_list.map (fun p =>
      (p.1 ++ ":" ++ toString p.2,
       Json.obj [("healthy", .bool (lb.node_manager.is_healthy p)),
                 ("metrics", (lb.proxy_stats p).getD .null)]))
    let res : Json := .obj [("status", .str "OK"),
      ("data", .obj [("strategy", .str lb.strategy),
                     ("current_index", .num (lb.current_index : ℚ)),
                     ("proxies", .obj proxies)])]
    .ok (res.dumps ++ "\n", lb)
  else
    let decoded_data := decoded ++ "\n"
    match lb.pick_proxy with
    | .error e => .error e
    | .ok (some proxy, lb1) =>
        let fr := forward_request loads lb1.node_manager proxy (replies decoded_data proxy)
        let lb2 := { lb1 with node_manager := fr.2 }
        if pyTruthyStr fr.1 then
          .ok (fr.1.getD "", lb2)
        else
          .ok (Json.dumps (.obj [("status", .str "PROXY_UNREACHABLE"), ("data", .null)]) ++ "\n", lb2)
    | .ok (none, lb1) =>
        .ok (Json.dumps (.obj [("status", .str "PROXY_ERROR"), ("data", .null)]) ++ "\n", lb1)

/-- What one proxy's METRICS connection yielded, as observed by
`request_metrics`. -/
inductive MetricsReply where
  | connectFail
  | eof
  | parseFail
  | parsed (j : Json)

/-- `LoadBalancer.request_metrics`, as a function of the proxy's reply.
Connection failure, empty reply and parse failure return `None`; a parsed
reply is checked with `res["status"] == "OK" and "data" in res` — the
subscript raises on non-objects and on objects without a `"status"` key
(only `json.loads` is inside the inner `try`). -/
def request_metrics : MetricsReply → Except PyError (Option Json)
  | .connectFail => .ok none
  | .eof => .ok none
  | .parseFail => .ok none
  | .parsed res => do
      let status ← res.subscript "status"
      let isOK : Bool := match status with
        | .str s => s == "OK"
        | _ => false
      if isOK && res.hasKey "data" then
        match res.subscript "data" with
        | .ok d => pure (some d)
        | .error e => .error e
      else
        pure none

/-- Python truthiness of the value returned by `request_metrics`
(`if metrics:`). -/
def pyTruthyOptJson : Option Json → Bool
  | none => false
  | some j => j.truthy

/-- One pass of the `for proxy in self.proxy_list:` body inside
`metrics_loop`'s `try`: on a truthy metrics value replace the slot and mark
healthy; on `None` (or a falsy value) null the slot and mark unhealthy; an
exception raised by `request_metrics` is caught by the loop's outer
`except`, ending the cycle with the remaining proxies unprocessed. -/
def metrics_cycle_go (replies : Node → MetricsReply) :
    List Node → (Node → Option Json) → NodeManager →
    (Node → Option Json) × NodeManager
  | [], stats, nm => (stats, nm)
  | p :: rest, stats, nm =>
      match request_metrics (replies p) with
      | .error _ => (stats, nm)
      | .ok metrics =>
          if pyTruthyOptJson metrics then
            metrics_cycle_go replies rest
              (fun x => if x = p then metrics else stats x) (nm.mark_healthy p)
          else
            metrics_cycle_go replies rest
              (fun x => if x = p then none else stats x) (nm.mark_unhealthy p)

/-- One full cycle of `LoadBalancer.metrics_loop` (one wakeup): poll every
configured proxy in order, under the cycle-level exception boundary. -/
def LoadBalancer.metrics_cycle (lb : LoadBalancer)
    (replies : Node → MetricsReply) : LoadBalancer :=
  let r := metrics_cycle_go replies lb.proxy_list lb.proxy_stats lb.node_manager
  { lb with proxy_stats := r.1, node_manager := r.2 }

/-- Python `s.startswith(pre)` / a structural `String` prefix test that
evaluates by `decide` (used in claim statements about status strings). -/
def pyStartsWith (s pre : String) : Bool :=
  pre.data.isPrefixOf s.data

/-- Reference form of Python's `min` with all keys precomputed: the first
element of `x :: l` attaining the minimal key (used to state and prove the
behaviour of `pyMin`). -/
def firstMinBy (f : α → ℚ) (x : α) : List α → α
  | [] => x
  | y :: ys => if f y < f x then firstMinBy f y ys else firstMinBy f x ys

/-- The numeric load of a proxy under the least-loaded key, with errors
mapped to 0 (used only to reason about `pyMin`; on snapshots satisfying the
well-formedness hypotheses `loadKey` never errors). -/
def loadVal (stats : Node → Option Json) (client : Node) : ℚ :=
  match loadKey stats client with
  | .ok q => q
  | .error _ => 0

/-! # Theorems -/

/-- C1 counterexample: the claim says the keys of `ProxyMetrics.report()`
include `cache_hits` (and `cache_misses`); on the freshly initialized
counter state the snapshot has no `cache_hits` key at all — the source
exports the counters as `hits` and `misses`. -/
theorem C1_report_keys_counterexample :
    "cache_hits" ∉ ((ProxyMetrics.init "2025-01-01T00:00:00").report.map Prod.fst) := by
  decide

/-- C1 (amended): for every state of the proxy metrics counter,
`ProxyMetrics.report()` returns a snapshot whose keys are exactly
`start_time`, `total_requests`, `hit_rate`, `hits`, `misses`,
`origin_fetches`, and in which `hit_rate` equals `0` when
`cache_hits + cache_misses = 0` and `hits/(hits+misses)` otherwise. -/
theorem C1_report_keys_and_hit_rate (m : ProxyMetrics) :
    m.report.map Prod.fst =
      ["start_time", "total_requests", "hit_rate", "hits", "misses", "origin_fetches"] ∧
    m.report.lookup "hit_rate" =
      some (.num (if m.cache_hits + m.cache_misses = 0 then 0
        else (m.cache_hits : ℚ) / ((m.cache_hits : ℚ) + (m.cache_misses : ℚ)))) := by
  constructor
  · simp [ProxyMetrics.report]
  · simp [ProxyMetrics.report, List.lookup]

lemma applyOp_keeps_inv (nm : NodeManager) (op : HealthOp)
    (hmax : nm.max_failures = 3)
    (hinv : ∀ n : Node, (nm.nodes n).healthy = true ↔ (nm.nodes n).failures < 3) :
    (nm.applyOp op).proxy_list = nm.proxy_list ∧
    (nm.applyOp op).max_failures = 3 ∧
    ∀ n : Node, ((nm.applyOp op).nodes n).healthy = true ↔
      ((nm.applyOp op).nodes n).failures < 3 := by
  cases op with
  | mark_healthy p =>
      refine ⟨rfl, hmax, fun n => ?_⟩
      by_cases h : n = p <;> simp [NodeManager.applyOp, NodeManager.mark_healthy, h, hinv n]
  | mark_unhealthy p =>
      refine ⟨rfl, hmax, fun n => ?_⟩
      by_cases h : n = p
      · subst h
        simp only [NodeManager.applyOp, NodeManager.mark_unhealthy, if_pos rfl, hmax]
        by_cases h3 : (nm.nodes n).failures + 1 ≥ 3
        · simp [h3] <;> omega
        · have : (nm.nodes n).failures < 3 := by omega
          simp [h3, (hinv n).mpr this] <;> omega
      · simp [NodeManager.applyOp, NodeManager.mark_unhealthy, h, hinv n]

lemma run_keeps_inv (ops : List HealthOp) (nm : NodeManager)
    (hmax : nm.max_failures = 3)
    (hinv : ∀ n : Node, (nm.nodes n).healthy = true ↔ (nm.nodes n).failures < 3) :
    (nm.run ops).proxy_list = nm.proxy_list ∧
    (nm.run ops).max_failures = 3 ∧
    ∀ n : Node, ((nm.run ops).nodes n).healthy = true ↔
      ((nm.run ops).nodes n).failures < 3 := by
  induction ops generalizing nm with
  | nil => exact ⟨rfl, hmax, hinv⟩
  | cons op ops ih =>
      obtain ⟨hp, hm, hi⟩ := applyOp_keeps_inv nm op hmax hinv
      obtain ⟨hp2, hm2, hi2⟩ := ih (nm.applyOp op) hm hi
      exact ⟨hp2.trans hp, hm2, hi2⟩

/-- C8: starting from the initial registry (all nodes healthy with zero
failures) and after any sequence of `mark_healthy`/`mark_unhealthy` calls:
a further `mark_unhealthy` on a configured node increments its failure
count by one and leaves it unhealthy exactly when the count reaches 3 (one
or two consecutive failures leave a healthy node healthy); a further
`mark_healthy` resets it to healthy with zero failures; and
`get_healthy_nodes()` contains exactly the configured nodes currently
marked healthy, or every configured node when no node is healthy. -/
theorem C8_node_health_state_machine (pl : List Node) (ops : List HealthOp)
    (n : Node) (hn : n ∈ pl) :
    (((((NodeManager.init pl).run ops).mark_unhealthy n).nodes n).failures =
        ((((NodeManager.init pl).run ops)).nodes n).failures + 1) ∧
    (((((NodeManager.init pl).run ops).mark_unhealthy n).nodes n).healthy = false ↔
        3 ≤ (((NodeManager.init pl).run ops).nodes n).failures + 1) ∧
    ((((NodeManager.init pl).run ops).mark_healthy n).nodes n = ⟨true, 0⟩) ∧
    (∀ x : Node, x ∈ ((NodeManager.init pl).run ops).get_healthy_nodes ↔
      (x ∈ pl ∧ (((((NodeManager.init pl).run ops).nodes x).healthy = true) ∨
        ∀ y ∈ pl, (((NodeManager.init pl).run ops).nodes y).healthy = false))) := by
  obtain ⟨hp, hm, hi⟩ := run_keeps_inv ops (NodeManager.init pl) rfl
    (by intro x; simp [NodeManager.init])
  set nm := (NodeManager.init pl).run ops with hnm
  have hpl : nm.proxy_list = pl := by simpa [NodeManager.init] using hp
  refine ⟨?_, ?_, ?_, ?_⟩
  · simp [NodeManager.mark_unhealthy]
  · simp only [NodeManager.mark_unhealthy, if_pos rfl, hm]
    by_cases h3 : (nm.nodes n).failures + 1 ≥ 3
    · simp [h3] <;> omega
    · have hlt : (nm.nodes n).failures < 3 := by omega
      simp [h3, (hi n).mpr hlt] <;> omega
  · simp [NodeManager.mark_healthy]
  · intro x
    simp only [NodeManager.get_healthy_nodes, hpl]
    by_cases hemp : (pl.filter (fun y => (nm.nodes y).healthy)).isEmpty
    · rw [if_pos hemp]
      rw [List.isEmpty_iff, List.filter_eq_nil_iff] at hemp
      constructor
      · intro hx
        exact ⟨hx, Or.inr (fun y hy => by
          have := hemp y hy
          simpa using this)⟩
      · exact fun hx => hx.1
    · rw [if_neg hemp]
      rw [List.mem_filter]
      constructor
      · intro hx
        exact ⟨hx.1, Or.inl (by simpa using hx.2)⟩
      · rintro ⟨hx, hc | hall⟩
        · exact ⟨hx, by simpa using hc⟩
        · exfalso
          apply hemp
          rw [List.isEmpty_iff, List.filter_eq_nil_iff]
          intro y hy
          simp [hall y hy]

lemma eraseKey_length_le (l : List (String × α)) (k : String) :
    (eraseKey l k).length ≤ l.length := by
  induction l with
  | nil => simp [eraseKey]
  | cons p rest ih =>
      simp only [eraseKey]
      split
      · simp
      · simpa using ih

lemma eraseKey_length_of_lookup (l : List (String × α)) (k : String) (v : α)
    (h : l.lookup k = some v) : (eraseKey l k).length + 1 = l.length := by
  induction l with
  | nil => simp [List.lookup] at h
  | cons p rest ih =>
      obtain ⟨a, b⟩ := p
      cases hk : (k == a) with
      | true => simp [eraseKey, hk]
      | false =>
          simp only [List.lookup, hk] at h
          simp [eraseKey, hk, ih h]

lemma eraseKey_of_lookup_none (l : List (String × α)) (k : String)
    (h : l.lookup k = none) : eraseKey l k = l := by
  induction l with
  | nil => rfl
  | cons p rest ih =>
      obtain ⟨a, b⟩ := p
      cases hk : (k == a) with
      | true => simp [List.lookup, hk] at h
      | false =>
          simp only [List.lookup, hk] at h
          simp [eraseKey, hk, ih h]

lemma lookup_eq_none_of_not_mem_keys (l : List (String × α)) (k : String)
    (h : k ∉ l.map Prod.fst) : l.lookup k = none := by
  induction l with
  | nil => rfl
  | cons p rest ih =>
      obtain ⟨a, b⟩ := p
      simp only [List.map, List.mem_cons] at h
      push_neg at h
      have hk : (k == a) = false := by
        simpa using h.1
      simp only [List.lookup, hk]
      exact ih h.2

lemma lookup_eraseKey_self (l : List (String × α)) (k : String)
    (hnd : (l.map Prod.fst).Nodup) : (eraseKey l k).lookup k = none := by
  induction l with
  | nil => rfl
  | cons p rest ih =>
      obtain ⟨a, b⟩ := p
      simp only [List.map, List.nodup_cons] at hnd
      cases hk : (k == a) with
      | true =>
          have : k = a := by simpa using hk
          subst this
          simp only [eraseKey, hk, if_pos rfl]
          exact lookup_eq_none_of_not_mem_keys rest k hnd.1
      | false =>
          simp only [eraseKey, hk]
          simp only [Bool.false_eq_true, if_false, List.lookup, hk]
          exact ih hnd.2

lemma lookup_writeKey_self (l : List (String × α)) (k : String) (v : α) :
    (writeKey l k v).lookup k = some v := by
  induction l with
  | nil => simp [writeKey, List.lookup]
  | cons p rest ih =>
      obtain ⟨a, b⟩ := p
      cases hk : (k == a) with
      | true => simp [writeKey, hk, List.lookup]
      | false =>
          simp only [writeKey, hk]
          simp only [Bool.false_eq_true, if_false, List.lookup, hk]
          exact ih

lemma LRUCache.apply_capacity (c : LRUCache) (op : LRUOp) :
    (c.apply op).capacity = c.capacity := by
  cases op with
  | get k =>
      simp only [LRUCache.apply, LRUCache.get]
      cases c.entries.lookup k <;> rfl
  | set k v =>
      simp only [LRUCache.apply, LRUCache.set]
      split <;> rfl

lemma LRUCache.apply_size_le (c : LRUCache) (op : LRUOp)
    (h : c.size ≤ c.capacity) : (c.apply op).size ≤ c.capacity := by
  have hsz : c.entries.length ≤ c.capacity := h
  cases op with
  | get k =>
      simp only [LRUCache.apply, LRUCache.get]
      cases hl : c.entries.lookup k with
      | none => exact h
      | some v =>
          have h1 := eraseKey_length_of_lookup c.entries k v hl
          simp only [LRUCache.size, List.length_append, List.length_cons,
            List.length_nil]
          omega
  | set k v =>
      have h1 := eraseKey_length_le c.entries k
      simp only [LRUCache.apply, LRUCache.set]
      split <;> rename_i hgt <;>
        simp only [LRUCache.size, List.length_tail, List.length_append,
          List.length_cons, List.length_nil] at hgt ⊢ <;> omega

lemma LRUCache.run_size_le (ops : List LRUOp) (c : LRUCache) (h : c.size ≤ c.capacity) :
    (c.run ops).size ≤ c.capacity ∧ (c.run ops).capacity = c.capacity := by
  induction ops generalizing c with
  | nil => exact ⟨h, rfl⟩
  | cons op ops ih =>
      have h1 := c.apply_size_le op h
      have h2 := c.apply_capacity op
      obtain ⟨h3, h4⟩ := ih (c.apply op) (by rw [h2]; exact h1)
      exact ⟨h2 ▸ h3, h4.trans h2⟩

/-- C6: for an LRU cache of capacity ≥ 1, `size() ≤ capacity` holds after
every finite sequence of `get`/`set` operations from the fresh cache; and a
`set` of an absent key on a full cache evicts exactly the least recently
used entry (the front of the recency order), leaving the rest and appending
the new key as most recently used. -/
theorem C6_lru_capacity_invariant_and_eviction (capacity : Nat)
    (hcap : 1 ≤ capacity) :
    (∀ ops : List LRUOp, ((LRUCache.init capacity).run ops).size ≤ capacity) ∧
    (∀ (c : LRUCache) (k : String) (v : Json),
      c.capacity = capacity → c.entries.lookup k = none → c.size = capacity →
      (c.set k v).entries = c.entries.tail ++ [(k, v)] ∧
      (c.set k v).size = capacity) := by
  constructor
  · intro ops
    exact ((LRUCache.init capacity).run_size_le ops (by simp [LRUCache.init, LRUCache.size])).1
  · intro c k v hc hlk hsz
    have hmoved : eraseKey c.entries k ++ [(k, v)] = c.entries ++ [(k, v)] := by
      rw [eraseKey_of_lookup_none c.entries k hlk]
    have hlen : (eraseKey c.entries k ++ [(k, v)]).length = capacity + 1 := by
      rw [hmoved, List.length_append]
      have : c.entries.length = capacity := hsz
      simp only [List.length_cons, List.length_nil]
      omega
    have hgt : (eraseKey c.entries k ++ [(k, v)]).length > c.capacity := by
      rw [hlen, hc]
      omega
    have hne : c.entries ≠ [] := by
      intro hnil
      have : c.entries.length = capacity := hsz
      rw [hnil] at this
      simp at this
      omega
    constructor
    · show (if (eraseKey c.entries k ++ [(k, v)]).length > c.capacity
          then (⟨c.capacity, (eraseKey c.entries k ++ [(k, v)]).tail⟩ : LRUCache)
          else ⟨c.capacity, eraseKey c.entries k ++ [(k, v)]⟩).entries =
        c.entries.tail ++ [(k, v)]
      rw [if_pos hgt, hmoved]
      obtain ⟨p, rest, hpr⟩ := List.exists_cons_of_ne_nil hne
      rw [hpr]
      simp
    · show (if (eraseKey c.entries k ++ [(k, v)]).length > c.capacity
          then (⟨c.capacity, (eraseKey c.entries k ++ [(k, v)]).tail⟩ : LRUCache)
          else ⟨c.capacity, eraseKey c.entries k ++ [(k, v)]⟩).size = capacity
      rw [if_pos hgt]
      show (eraseKey c.entries k ++ [(k, v)]).tail.length = capacity
      rw [List.length_tail, hlen]
      omega

/-- C6 witness: capacity 2 satisfies the hypotheses; after `set a, set b,
set c, get b` the size is within capacity, and a `set` of the absent key
`"c"` on the full cache `[a, b]` evicts exactly `"a"`, the least recently
used entry. -/
theorem C6_witness :
    (1 ≤ 2) ∧
    ((LRUCache.init 2).run
      [LRUOp.set "a" .null, LRUOp.set "b" .null, LRUOp.set "c" .null,
       LRUOp.get "b"]).size ≤ 2 ∧
    ((⟨2, [("a", Json.null), ("b", Json.null)]⟩ : LRUCache).set "c" .null).entries =
      [("b", Json.null), ("c", Json.null)] := by
  have h := C6_lru_capacity_invariant_and_eviction 2 (by omega)
  refine ⟨by omega, h.1 _, ?_⟩
  have h2 := (h.2 ⟨2, [("a", Json.null), ("b", Json.null)]⟩ "c" .null rfl rfl rfl).1
  simpa using h2

/-- C7: for a TTL cache with `ttl = T` (whose store, a dict, has unique
keys) and any key `k`: `get(k)` returns `(None, false)` when `k` is absent;
after `set(k,v)` at time `now`, a `get(k)` at any time up to the recorded
expiry `now + T` returns `(v, true)`, and the recorded expiry is exactly
`now + T` (also for a later `set` on the same key); a `get(k)` strictly
after the recorded expiry returns `(None, false)` and removes `k` from the
store, shrinking `size()` by one. -/
theorem C7_ttl_expiry_semantics (T : ℚ) (c : TTLCache) (hT : c.ttl = T)
    (hnd : (c.store.map Prod.fst).Nodup) (k : String) (v : Json) :
    (c.store.lookup k = none → ∀ t : ℚ, c.get t k = ((Json.null, false), c)) ∧
    (∀ now t : ℚ, t ≤ now + T → ((c.set now k v).get t k).1 = (v, true)) ∧
    (∀ now : ℚ, (c.set now k v).store.lookup k = some (v, now + T)) ∧
    (∀ (w : Json) (exp t : ℚ), c.store.lookup k = some (w, exp) → exp < t →
      c.get t k = ((Json.null, false), c.delete k) ∧
      (c.delete k).store.lookup k = none ∧
      (c.delete k).size + 1 = c.size) := by
  refine ⟨?_, ?_, ?_, ?_⟩
  · intro h t
    simp [TTLCache.get, h]
  · intro now t ht
    have hl : (c.set now k v).store.lookup k = some (v, now + T) := by
      simp only [TTLCache.set, hT]
      exact lookup_writeKey_self c.store k (v, now + T)
    simp only [TTLCache.get, hl]
    rw [if_neg (by exact not_lt.mpr ht)]
  · intro now
    simp only [TTLCache.set, hT]
    exact lookup_writeKey_self c.store k (v, now + T)
  · intro w exp t hl hexp
    refine ⟨?_, ?_, ?_⟩
    · simp only [TTLCache.get, hl]
      rw [if_pos hexp]
    · exact lookup_eraseKey_self c.store k hnd
    · exact eraseKey_length_of_lookup c.store k (w, exp) hl

/-- C7 witness: with `ttl = 30`, after `set("k", "x")` at time 0 a `get` at
time 30 (the recorded expiry) still returns the value, the recorded expiry
is `0 + 30`, a `get` at time 31 expires the entry and removes it, and a
`get` on the never-set key of the fresh cache misses. -/
theorem C7_witness :
    ((TTLCache.init 30).get 5 "k" = ((Json.null, false), TTLCache.init 30)) ∧
    ((((TTLCache.init 30).set 0 "k" (Json.str "x")).get 30 "k").1 = (Json.str "x", true)) ∧
    (((TTLCache.init 30).set 0 "k" (Json.str "x")).store.lookup "k" =
      some (Json.str "x", 0 + 30)) ∧
    (((TTLCache.init 30).set 0 "k" (Json.str "x")).get 31 "k" =
      ((Json.null, false), ((TTLCache.init 30).set 0 "k" (Json.str "x")).delete "k")) ∧
    ((((TTLCache.init 30).set 0 "k" (Json.str "x")).delete "k").size + 1 =
      ((TTLCache.init 30).set 0 "k" (Json.str "x")).size) := by
  have h0 := C7_ttl_expiry_semantics 30 (TTLCache.init 30) rfl (by simp [TTLCache.init]) "k" (Json.str "x")
  have h1 := C7_ttl_expiry_semantics 30 ((TTLCache.init 30).set 0 "k" (Json.str "x")) rfl
    (by simp [TTLCache.init, TTLCache.set, writeKey]) "k" (Json.str "x")
  refine ⟨h0.1 rfl 5, h0.2.1 0 30 (by norm_num), h0.2.2.1 0, ?_, ?_⟩
  · exact (h1.2.2.2 (Json.str "x") (0 + 30) 31 (h0.2.2.1 0) (by norm_num)).1
  · exact (h1.2.2.2 (Json.str "x") (0 + 30) 31 (h0.2.2.1 0) (by norm_num)).2.2

/-- C8 witness: a one-node registry with no prior calls satisfies the
hypotheses; the first `mark_unhealthy` takes the failure count from 0
to 1 and the node stays healthy (1 < 3). -/
theorem C8_witness :
    (("h", 9001) ∈ ([(("h" : String), 9001)] : List Node)) ∧
    ((((NodeManager.init [("h", 9001)]).run []).mark_unhealthy ("h", 9001)).nodes
        ("h", 9001)).failures =
      (((NodeManager.init [("h", 9001)]).run []).nodes ("h", 9001)).failures + 1 ∧
    ¬((((NodeManager.init [("h", 9001)]).run []).mark_unhealthy ("h", 9001)).nodes
        ("h", 9001)).healthy = false := by
  have h := C8_node_health_state_machine [("h", 9001)] [] ("h", 9001) (by simp)
  refine ⟨by simp, h.1, ?_⟩
  rw [h.2.1]
  simp [NodeManager.init, NodeManager.run]

/-- C3 counterexample: a reply that is valid JSON but not an object with a
`status` key does not yield `(None, "ORIGIN_FAILURE")` — `res["status"]`
raises out of `fetch_from_origin` (only `json.loads` is inside the `try`):
the JSON number `42` raises `TypeError`, the JSON object without keys
raises `KeyError`. -/
theorem C3_fetch_counterexample :
    fetch_from_origin (.parsed (Json.num 42)) = .error .typeError ∧
    fetch_from_origin (.parsed (Json.obj [])) = .error (.keyError "status") := by
  exact ⟨rfl, rfl⟩

/-- C3 (amended): connection failure, empty reply and parse failure yield
`(None, "ORIGIN_FAILURE")`; a parsed JSON object with a `status` key maps
`"OK"` (with a `data` key) to `(data, "OK")`, `"NOT_FOUND"` to
`(None, "NOT_FOUND")` and any other status value to
`(None, "ORIGIN_FAILURE")`; but a parsed reply that is not an object, or is
an object without a `status` key, or has status `"OK"` without a `data`
key, raises an uncaught `TypeError`/`KeyError` instead of returning. -/
theorem C3_fetch_outcome_mapping :
    (fetch_from_origin .connectFail = .ok (.null, "ORIGIN_FAILURE")) ∧
    (fetch_from_origin .emptyLine = .ok (.null, "ORIGIN_FAILURE")) ∧
    (fetch_from_origin .parseFail = .ok (.null, "ORIGIN_FAILURE")) ∧
    (∀ (fields : List (String × Json)) (d : Json),
      fields.lookup "status" = some (.str "OK") → fields.lookup "data" = some d →
      fetch_from_origin (.parsed (.obj fields)) = .ok (d, "OK")) ∧
    (∀ fields : List (String × Json),
      fields.lookup "status" = some (.str "OK") → fields.lookup "data" = none →
      fetch_from_origin (.parsed (.obj fields)) = .error (.keyError "data")) ∧
    (∀ fields : List (String × Json),
      fields.lookup "status" = some (.str "NOT_FOUND") →
      fetch_from_origin (.parsed (.obj fields)) = .ok (.null, "NOT_FOUND")) ∧
    (∀ (fields : List (String × Json)) (s : String),
      fields.lookup "status" = some (.str s) → s ≠ "OK" → s ≠ "NOT_FOUND" →
      fetch_from_origin (.parsed (.obj fields)) = .ok (.null, "ORIGIN_FAILURE")) ∧
    (∀ (fields : List (String × Json)) (st : Json),
      fields.lookup "status" = some st → (∀ s : String, st ≠ .str s) →
      fetch_from_origin (.parsed (.obj fields)) = .ok (.null, "ORIGIN_FAILURE")) ∧
    (∀ fields : List (String × Json), fields.lookup "status" = none →
      fetch_from_origin (.parsed (.obj fields)) = .error (.keyError "status")) ∧
    (∀ j : Json, (∀ fields, j ≠ .obj fields) →
      fetch_from_origin (.parsed j) = .error .typeError) := by
  refine ⟨rfl, rfl, rfl, ?_, ?_, ?_, ?_, ?_, ?_, ?_⟩
  · intro fields d h1 h2
    simp [fetch_from_origin, Json.subscript, bind, Except.bind, pure, Except.pure, Functor.map, Except.map, h1, h2]
  · intro fields h1 h2
    simp [fetch_from_origin, Json.subscript, bind, Except.bind, pure, Except.pure, Functor.map, Except.map, h1, h2]
  · intro fields h1
    simp [fetch_from_origin, Json.subscript, bind, Except.bind, pure, Except.pure, Functor.map, Except.map, h1]
  · intro fields s h1 hs1 hs2
    simp [fetch_from_origin, Json.subscript, bind, Except.bind, pure, Except.pure, Functor.map, Except.map, h1, hs1, hs2]
  · intro fields st h1 h2
    cases st with
    | str s => exact absurd rfl (h2 s)
    | null => simp [fetch_from_origin, Json.subscript, bind, Except.bind, pure, Except.pure, Functor.map, Except.map, h1]
    | bool b => simp [fetch_from_origin, Json.subscript, bind, Except.bind, pure, Except.pure, Functor.map, Except.map, h1]
    | num q => simp [fetch_from_origin, Json.subscript, bind, Except.bind, pure, Except.pure, Functor.map, Except.map, h1]
    | arr elems => simp [fetch_from_origin, Json.subscript, bind, Except.bind, pure, Except.pure, Functor.map, Except.map, h1]
    | obj fs => simp [fetch_from_origin, Json.subscript, bind, Except.bind, pure, Except.pure, Functor.map, Except.map, h1]
  · intro fields h1
    simp [fetch_from_origin, Json.subscript, bind, Except.bind, pure, Except.pure, Functor.map, Except.map, h1]
  · intro j hj
    cases j with
    | obj fields => exact absurd rfl (hj fields)
    | null => rfl
    | bool b => rfl
    | num q => rfl
    | str s => rfl
    | arr elems => rfl

/-- C3 witness for the amended mapping: the object-shaped hypotheses are
satisfiable — an `OK` reply with data, a `NOT_FOUND` reply, an unknown
status, a non-string status, a missing status and a non-object reply all
behave as the amended mapping states. -/
theorem C3_witness :
    (fetch_from_origin (.parsed (.obj [("status", .str "OK"), ("data", .num 7)])) =
      .ok (.num 7, "OK")) ∧
    (fetch_from_origin (.parsed (.obj [("status", .str "NOT_FOUND")])) =
      .ok (.null, "NOT_FOUND")) ∧
    (fetch_from_origin (.parsed (.obj [("status", .str "WEIRD")])) =
      .ok (.null, "ORIGIN_FAILURE")) ∧
    (fetch_from_origin (.parsed (.obj [("status", .num 5)])) =
      .ok (.null, "ORIGIN_FAILURE")) ∧
    (fetch_from_origin (.parsed (.obj [("status", .str "OK")])) =
      .error (.keyError "data")) ∧
    (fetch_from_origin (.parsed (.obj [("other", .null)])) =
      .error (.keyError "status")) ∧
    (fetch_from_origin (.parsed (.arr [])) = .error .typeError) := by
  have h := C3_fetch_outcome_mapping
  refine ⟨h.2.2.2.1 _ (.num 7) rfl rfl, h.2.2.2.2.2.1 _ rfl, ?_, ?_, ?_, ?_, ?_⟩
  · exact h.2.2.2.2.2.2.1 _ "WEIRD" rfl (by simp) (by simp)
  · exact h.2.2.2.2.2.2.2.1 _ (.num 5) rfl (by intro s hs; cases hs)
  · exact h.2.2.2.2.1 _ rfl rfl
  · exact h.2.2.2.2.2.2.2.2.1 _ rfl
  · exact h.2.2.2.2.2.2.2.2.2 _ (by intro fields hf; cases hf)

/-- C4 counterexample: with two configured proxies, if the first one
answers the METRICS poll with the JSON object `\x7b"data": 1\x7d` (no
`status` field), the claim says its slot is nulled, it is marked unhealthy
and the cycle continues; instead `res["status"]` raises `KeyError`, the
loop's outer handler aborts the cycle, the first proxy's old snapshot and
healthy state are left untouched, and the second proxy (whose reply is a
perfectly valid success) is never polled. -/
theorem C4_metrics_cycle_counterexample :
    (let p1 : Node := ("h1", 9001);
     let p2 : Node := ("h2", 9002);
     let lb : LoadBalancer :=
       ⟨[p1, p2], NodeManager.init [p1, p2],
        (fun p => if p = p1 then some (.obj [("old", .num 7)]) else none), 0,
        "round_robin"⟩;
     let replies : Node → MetricsReply := fun p =>
       if p = p1 then .parsed (.obj [("data", .num 1)])
       else .parsed (.obj [("status", .str "OK"),
                           ("data", .obj [("total_requests", .num 3)])]);
     (lb.metrics_cycle replies).proxy_stats p1 = some (.obj [("old", .num 7)]) ∧
     (lb.metrics_cycle replies).node_manager.nodes p1 = ⟨true, 0⟩ ∧
     (lb.metrics_cycle replies).proxy_stats p2 = none ∧
     (lb.metrics_cycle replies).node_manager.nodes p2 = ⟨true, 0⟩) := by
  exact ⟨rfl, rfl, rfl, rfl⟩

/-- C4 (amended): in each iteration of the metrics polling cycle, a reply
whose parsed JSON is an object with status `"OK"` and a (truthy) `data`
field replaces the proxy's snapshot slot and marks it healthy; connection
error, empty reply, parse error, non-`OK` status, missing `data` field (or
falsy `data`) set the slot to null and mark the proxy unhealthy, and the
cycle continues with the remaining proxies; but a reply whose JSON has no
`"status"` field at all (or is not an object) raises out of
`request_metrics`, and the loop's cycle-level exception handler then ends
the cycle: that proxy's slot and health are left unchanged and the
remaining proxies are skipped until the next cycle. -/
theorem C4_metrics_cycle_behaviour (replies : Node → MetricsReply) (p : Node)
    (rest : List Node) (stats : Node → Option Json) (nm : NodeManager) :
    (request_metrics .connectFail = .ok none) ∧
    (request_metrics .eof = .ok none) ∧
    (request_metrics .parseFail = .ok none) ∧
    (∀ (fields : List (String × Json)) (s : String),
      fields.lookup "status" = some (.str s) → s ≠ "OK" →
      request_metrics (.parsed (.obj fields)) = .ok none) ∧
    (∀ (fields : List (String × Json)) (st : Json),
      fields.lookup "status" = some st → (∀ s : String, st ≠ .str s) →
      request_metrics (.parsed (.obj fields)) = .ok none) ∧
    (∀ fields : List (String × Json),
      fields.lookup "status" = some (.str "OK") → fields.lookup "data" = none →
      request_metrics (.parsed (.obj fields)) = .ok none) ∧
    (∀ (fields : List (String × Json)) (d : Json),
      fields.lookup "status" = some (.str "OK") → fields.lookup "data" = some d →
      request_metrics (.parsed (.obj fields)) = .ok (some d)) ∧
    (∀ fields : List (String × Json), fields.lookup "status" = none →
      request_metrics (.parsed (.obj fields)) = .error (.keyError "status")) ∧
    (∀ j : Json, (∀ fields, j ≠ .obj fields) →
      request_metrics (.parsed j) = .error .typeError) ∧
    (∀ m : Json, request_metrics (replies p) = .ok (some m) → m.truthy = true →
      metrics_cycle_go replies (p :: rest) stats nm =
        metrics_cycle_go replies rest (fun x => if x = p then some m else stats x)
          (nm.mark_healthy p)) ∧
    (∀ om : Option Json, request_metrics (replies p) = .ok om →
      pyTruthyOptJson om = false →
      metrics_cycle_go replies (p :: rest) stats nm =
        metrics_cycle_go replies rest (fun x => if x = p then none else stats x)
          (nm.mark_unhealthy p)) ∧
    (∀ e : PyError, request_metrics (replies p) = .error e →
      metrics_cycle_go replies (p :: rest) stats nm = (stats, nm)) := by
  refine ⟨rfl, rfl, rfl, ?_, ?_, ?_, ?_, ?_, ?_, ?_, ?_, ?_⟩
  · intro fields s h1 hs
    simp [request_metrics, Json.subscript, Json.hasKey, bind, Except.bind,
      pure, Except.pure, h1, hs]
  · intro fields st h1 h2
    cases st with
    | str s => exact absurd rfl (h2 s)
    | null => simp [request_metrics, Json.subscript, bind, Except.bind, pure, Except.pure, h1]
    | bool b => simp [request_metrics, Json.subscript, bind, Except.bind, pure, Except.pure, h1]
    | num q => simp [request_metrics, Json.subscript, bind, Except.bind, pure, Except.pure, h1]
    | arr elems => simp [request_metrics, Json.subscript, bind, Except.bind, pure, Except.pure, h1]
    | obj fs => simp [request_metrics, Json.subscript, bind, Except.bind, pure, Except.pure, h1]
  · intro fields h1 h2
    simp [request_metrics, Json.subscript, Json.hasKey, bind, Except.bind,
      pure, Except.pure, h1, h2]
  · intro fields d h1 h2
    simp [request_metrics, Json.subscript, Json.hasKey, bind, Except.bind,
      pure, Except.pure, h1, h2]
  · intro fields h1
    simp [request_metrics, Json.subscript, bind, Except.bind, pure, Except.pure, h1]
  · intro j hj
    cases j with
    | obj fields => exact absurd rfl (hj fields)
    | null => rfl
    | bool b => rfl
    | num q => rfl
    | str s => rfl
    | arr elems => rfl
  · intro m hreq hm
    simp [metrics_cycle_go, hreq, pyTruthyOptJson, hm]
  · intro om hreq hom
    simp [metrics_cycle_go, hreq, hom]
  · intro e hreq
    simp [metrics_cycle_go, hreq]

/-- C4 witness for the amended behaviour: concrete polls — an `OK` reply
with data updates the slot and health and continues, a connection failure
nulls the slot, marks unhealthy and continues, and a missing-status reply
ends the cycle with the state unchanged. -/
theorem C4_witness :
    (request_metrics (.parsed (.obj [("status", .str "OK"), ("data", .num 3)])) =
      .ok (some (.num 3))) ∧
    (metrics_cycle_go (fun _ => .parsed (.obj [("status", .str "OK"), ("data", .num 3)]))
        [(("h1", 9001) : Node)] (fun _ => none) (NodeManager.init [("h1", 9001)]) =
      metrics_cycle_go (fun _ => .parsed (.obj [("status", .str "OK"), ("data", .num 3)]))
        [] (fun x => if x = (("h1", 9001) : Node) then some (.num 3) else none)
        ((NodeManager.init [("h1", 9001)]).mark_healthy ("h1", 9001))) ∧
    (metrics_cycle_go (fun _ => .connectFail)
        [(("h1", 9001) : Node)] (fun _ => none) (NodeManager.init [("h1", 9001)]) =
      metrics_cycle_go (fun _ => .connectFail)
        [] (fun x => if x = (("h1", 9001) : Node) then none else none)
        ((NodeManager.init [("h1", 9001)]).mark_unhealthy ("h1", 9001))) ∧
    (metrics_cycle_go (fun _ => .parsed (.obj []))
        [(("h1", 9001) : Node)] (fun _ => none) (NodeManager.init [("h1", 9001)]) =
      (fun _ => none, NodeManager.init [("h1", 9001)])) := by
  have h1 := C4_metrics_cycle_behaviour
    (fun _ => .parsed (.obj [("status", .str "OK"), ("data", .num 3)]))
    ("h1", 9001) [] (fun _ => none) (NodeManager.init [("h1", 9001)])
  have h2 := C4_metrics_cycle_behaviour (fun _ => .connectFail)
    ("h1", 9001) [] (fun _ => none) (NodeManager.init [("h1", 9001)])
  have h3 := C4_metrics_cycle_behaviour (fun _ => .parsed (.obj []))
    ("h1", 9001) [] (fun _ => none) (NodeManager.init [("h1", 9001)])
  refine ⟨h1.2.2.2.2.2.2.1 _ (.num 3) rfl rfl, ?_, ?_, ?_⟩
  · exact h1.2.2.2.2.2.2.2.2.2.1 (.num 3) (h1.2.2.2.2.2.2.1 _ (.num 3) rfl rfl) rfl
  · exact h2.2.2.2.2.2.2.2.2.2.2.1 none rfl rfl
  · exact h3.2.2.2.2.2.2.2.2.2.2.2 (.keyError "status") (h3.2.2.2.2.2.2.2.1 [] rfl)

/-- C2 (code bug): on an empty configured proxy list, `pick_proxy` does not
return `None` (its docstring's promise, on which `handle_client`'s
`PROXY_ERROR` reply relies) — round-robin divides by `len([]) = 0` and
raises `ZeroDivisionError`, least-loaded calls `min([])` and raises
`ValueError`, so a non-METRICS client request makes `handle_client` die
inside `pick_proxy` and the client never receives
`\x7b"status": "PROXY_ERROR", "data": null\x7d`. -/
theorem C2_empty_proxy_list_raises :
    ((LoadBalancer.init [] "round_robin").pick_proxy = .error .zeroDivisionError) ∧
    ((LoadBalancer.init [] "least_loaded").pick_proxy =
      .error (.valueError "min() arg is an empty sequence")) ∧
    (LoadBalancer.handle_client (fun _ => .error "invalid")
      (LoadBalancer.init [] "round_robin") "GET a/b" (fun _ _ => .eof) =
      .error .zeroDivisionError) := by
  exact ⟨rfl, rfl, rfl⟩

lemma pyMinGo_eq_firstMinBy (key : α → Except PyError ℚ) (f : α → ℚ)
    (l : List α) (hl : ∀ x ∈ l, key x = .ok (f x)) (best : α) :
    pyMinGo key best (f best) l = .ok (firstMinBy f best l) := by
  induction l generalizing best with
  | nil => rfl
  | cons y ys ih =>
      have hy : key y = .ok (f y) := hl y (by simp)
      have hys : ∀ x ∈ ys, key x = .ok (f x) := fun x hx => hl x (by simp [hx])
      simp only [pyMinGo, hy, firstMinBy]
      by_cases hlt : f y < f best
      · rw [if_pos hlt, if_pos hlt]
        exact ih hys y
      · rw [if_neg hlt, if_neg hlt]
        exact ih hys best

lemma pyMin_eq_firstMinBy (key : α → Except PyError ℚ) (f : α → ℚ)
    (x : α) (xs : List α) (hl : ∀ z ∈ x :: xs, key z = .ok (f z)) :
    pyMin key (x :: xs) = .ok (firstMinBy f x xs) := by
  have hx := hl x (by simp)
  simp only [pyMin, hx]
  exact pyMinGo_eq_firstMinBy key f xs (fun z hz => hl z (by simp [hz])) x

lemma firstMinBy_spec (f : α → ℚ) (x : α) (l : List α) :
    ∃ l1 l2, x :: l = l1 ++ firstMinBy f x l :: l2 ∧
      (∀ y ∈ x :: l, f (firstMinBy f x l) ≤ f y) ∧
      (∀ y ∈ l1, f (firstMinBy f x l) < f y) := by
  induction l generalizing x with
  | nil =>
      refine ⟨[], [], by simp [firstMinBy], ?_, by simp⟩
      intro y hy
      simp only [firstMinBy]
      rcases List.mem_singleton.mp hy with rfl
      exact le_refl _
  | cons y ys ih =>
      by_cases hlt : f y < f x
      · obtain ⟨l1, l2, hdec, hle, hstrict⟩ := ih y
        simp only [firstMinBy, if_pos hlt]
        refine ⟨x :: l1, l2, ?_, ?_, ?_⟩
        · rw [List.cons_append, ← hdec]
        · intro z hz
          rcases List.mem_cons.mp hz with rfl | hz
          · exact le_trans (hle y (by simp)) (le_of_lt hlt)
          · exact hle z hz
        · intro z hz
          rcases List.mem_cons.mp hz with rfl | hz
          · exact lt_of_le_of_lt (hle y (by simp)) hlt
          · exact hstrict z hz
      · obtain ⟨l1, l2, hdec, hle, hstrict⟩ := ih x
        simp only [firstMinBy, if_neg hlt]
        have hxy : f x ≤ f y := le_of_not_lt hlt
        cases l1 with
        | nil =>
            simp only [List.nil_append] at hdec
            injection hdec with h1 h2
            refine ⟨[], y :: ys, by simp [← h1], ?_, by simp⟩
            intro z hz
            rcases List.mem_cons.mp hz with rfl | hz
            · rw [← h1]
            · rcases List.mem_cons.mp hz with rfl | hz
              · rw [← h1]
                exact hxy
              · exact hle z (by simp [hz])
        | cons a t =>
            injection hdec with h1 h2
            have h2c : ys = t ++ firstMinBy f x ys :: l2 := h2
            have hax : f (firstMinBy f x ys) < f x := by
              have h := hstrict a (by simp)
              rw [← h1] at h
              exact h
            refine ⟨x :: y :: t, l2, ?_, ?_, ?_⟩
            · simp only [List.cons_append]
              rw [← h2c]
            · intro z hz
              rcases List.mem_cons.mp hz with rfl | hz
              · exact hle z (by simp)
              · rcases List.mem_cons.mp hz with rfl | hz
                · exact le_trans (le_of_lt hax) hxy
                · exact hle z (by simp [hz])
            · intro z hz
              rcases List.mem_cons.mp hz with rfl | hz
              · exact hax
              · rcases List.mem_cons.mp hz with rfl | hz
                · exact lt_of_lt_of_le hax hxy
                · exact hstrict z (by simp [hz])

/-- C9: with the least-loaded strategy, on a non-empty candidate list
produced by health filtering (the healthy sublist, or the full configured
list fail-open), `pick_proxy` returns a candidate `p` whose last-known
snapshot load (`total_requests`, with a null slot counting as 0) is minimal
among all candidates, and every candidate listed before `p` has strictly
greater load — so among equal loads the earliest candidate wins, and since
the candidate list is a sublist of the configured proxy list, that is the
one occurring earliest in the configured order. -/
theorem C9_least_loaded_selection (lb : LoadBalancer)
    (hstrat : lb.strategy = "least_loaded")
    (cands : List Node)
    (hcands : cands = if lb.node_manager.get_healthy_nodes.isEmpty
      then lb.proxy_list else lb.node_manager.get_healthy_nodes)
    (hnmpl : lb.node_manager.proxy_list = lb.proxy_list)
    (hne : lb.proxy_list ≠ [])
    (hkeys : ∀ x ∈ cands, ∃ q : ℚ, loadKey lb.proxy_stats x = .ok q) :
    ∃ (p : Node) (qp : ℚ) (l1 l2 : List Node),
      lb.pick_proxy = .ok (some p, lb) ∧
      loadKey lb.proxy_stats p = .ok qp ∧
      cands = l1 ++ p :: l2 ∧
      cands.Sublist lb.proxy_list ∧
      (∀ x ∈ cands, ∀ qx : ℚ, loadKey lb.proxy_stats x = .ok qx → qp ≤ qx) ∧
      (∀ x ∈ l1, ∀ qx : ℚ, loadKey lb.proxy_stats x = .ok qx → qp < qx) ∧
      (∀ x : Node, lb.proxy_stats x = none → loadKey lb.proxy_stats x = .ok 0) := by
  have hcne : cands ≠ [] := by
    rw [hcands]
    by_cases he : lb.node_manager.get_healthy_nodes.isEmpty
    · rw [if_pos he]
      exact hne
    · rw [if_neg he]
      intro h
      rw [h] at he
      exact he rfl
  have hsub : cands.Sublist lb.proxy_list := by
    rw [hcands]
    by_cases he : lb.node_manager.get_healthy_nodes.isEmpty
    · rw [if_pos he]
    · rw [if_neg he]
      simp only [NodeManager.get_healthy_nodes]
      by_cases hf : (lb.node_manager.proxy_list.filter
          (fun x => (lb.node_manager.nodes x).healthy)).isEmpty
      · rw [if_pos hf, hnmpl]
      · rw [if_neg hf, ← hnmpl]
        exact List.filter_sublist _
  have hkey_f : ∀ x ∈ cands, loadKey lb.proxy_stats x = .ok (loadVal lb.proxy_stats x) := by
    intro x hx
    obtain ⟨q, hq⟩ := hkeys x hx
    show loadKey lb.proxy_stats x = .ok (loadVal lb.proxy_stats x)
    rw [hq]
    simp [loadVal, hq]
  have hpick : lb.pick_proxy =
      (match pyMin (loadKey lb.proxy_stats) cands with
       | .error e => (.error e : Except PyError (Option Node × LoadBalancer))
       | .ok p => .ok (some p, lb)) := by
    simp only [LoadBalancer.pick_proxy, hstrat]
    rw [if_neg (show ¬("least_loaded" : String) = "round_robin" by decide)]
    rw [if_pos trivial, ← hcands]
  cases hxc : cands with
  | nil => exact absurd hxc hcne
  | cons x xs =>
      rw [hxc] at hsub hkey_f hpick
      have hl : ∀ z ∈ x :: xs,
          loadKey lb.proxy_stats z = .ok (loadVal lb.proxy_stats z) := hkey_f
      have hpm := pyMin_eq_firstMinBy (loadKey lb.proxy_stats)
        (loadVal lb.proxy_stats) x xs hl
      obtain ⟨l1, l2, hdec, hle, hstrict⟩ :=
        firstMinBy_spec (loadVal lb.proxy_stats) x xs
      have hpmem : firstMinBy (loadVal lb.proxy_stats) x xs ∈ x :: xs := by
        rw [hdec]
        exact List.mem_append_right _ (List.mem_cons_self _ _)
      refine ⟨firstMinBy (loadVal lb.proxy_stats) x xs,
        loadVal lb.proxy_stats (firstMinBy (loadVal lb.proxy_stats) x xs),
        l1, l2, ?_, ?_, hdec, hsub, ?_, ?_, ?_⟩
      · rw [hpick, hpm]
      · exact hl _ hpmem
      · intro z hz qx hqx
        have hq := hl z hz
        rw [hqx] at hq
        have : qx = loadVal lb.proxy_stats z := Except.ok.inj hq
        rw [this]
        exact hle z hz
      · intro z hz qx hqx
        have hzm : z ∈ x :: xs := by
          rw [hdec]
          exact List.mem_append_left _ hz
        have hq := hl z hzm
        rw [hqx] at hq
        have : qx = loadVal lb.proxy_stats z := Except.ok.inj hq
        rw [this]
        exact hstrict z hz
      · intro z hz
        simp [loadKey, hz]

/-- C9 witness: two proxies under least-loaded, the first polled at 5 total
requests, the second never polled (null slot, counting as load 0):
selection returns the second proxy. -/
theorem C9_witness :
    (([(("h1", 9001) : Node), ("h2", 9002)] : List Node) ≠ []) ∧
    (LoadBalancer.pick_proxy
      ⟨[("h1", 9001), ("h2", 9002)], NodeManager.init [("h1", 9001), ("h2", 9002)],
       (fun p => if p = (("h1", 9001) : Node)
         then some (.obj [("total_requests", .num 5)]) else none),
       0, "least_loaded"⟩ =
      .ok (some ("h2", 9002),
        ⟨[("h1", 9001), ("h2", 9002)], NodeManager.init [("h1", 9001), ("h2", 9002)],
         (fun p => if p = (("h1", 9001) : Node)
           then some (.obj [("total_requests", .num 5)]) else none),
         0, "least_loaded"⟩)) := by
  have h := C9_least_loaded_selection
    ⟨[("h1", 9001), ("h2", 9002)], NodeManager.init [("h1", 9001), ("h2", 9002)],
     (fun p => if p = (("h1", 9001) : Node)
       then some (.obj [("total_requests", .num 5)]) else none),
     0, "least_loaded"⟩ rfl [("h1", 9001), ("h2", 9002)] rfl rfl (by simp)
    (by
      intro x hx
      rcases List.mem_cons.mp hx with rfl | hx
      · exact ⟨5, rfl⟩
      · rcases List.mem_cons.mp hx with rfl | hx
        · exact ⟨0, rfl⟩
        · exact absurd hx (List.not_mem_nil _))
  exact ⟨by simp, rfl⟩

lemma append_newline_ne_empty (s : String) : s ++ "\n" ≠ "" := by
  intro h
  have hd := congrArg String.data h
  simp [String.data_append] at hd

lemma forward_request_ret (loads : String → Except String Json)
    (nm : NodeManager) (proxy : Node) (reply : ForwardReply) :
    ∃ s : String, (forward_request loads nm proxy reply).1 = some (s ++ "\n") := by
  cases reply with
  | connectFail err => exact ⟨_, rfl⟩
  | line s' =>
      cases h : loads (pyStrip s') with
      | error e =>
          refine ⟨Json.dumps (.obj [("status", .str "PROXY_UNREACHABLE"),
            ("data", .str e)]), ?_⟩
          simp [forward_request, h]
      | ok j =>
          refine ⟨pyStrip s', ?_⟩
          simp [forward_request, h]
  | eof => exact ⟨_, rfl⟩

lemma forward_request_truthy (loads : String → Except String Json)
    (nm : NodeManager) (proxy : Node) (reply : ForwardReply) :
    pyTruthyStr (forward_request loads nm proxy reply).1 = true := by
  obtain ⟨s, hs⟩ := forward_request_ret loads nm proxy reply
  rw [hs]
  simp [pyTruthyStr, append_newline_ne_empty s]

/-- C10: whatever the selected proxy's connection yields — connect failure,
EOF, an unparsable line or a valid JSON line — `forward_request` returns a
newline-terminated non-empty string, never `None`; consequently the
`if res:` guard in `handle_client` always holds and the fallback branch
sending `\x7b"status": "PROXY_UNREACHABLE", "data": null\x7d` when the
result is falsy is unreachable: once a proxy is picked, the client is sent
exactly `forward_request`'s result. -/
theorem C10_forward_request_always_truthy :
    (∀ (loads : String → Except String Json) (nm : NodeManager) (proxy : Node)
        (reply : ForwardReply),
      ∃ s : String, (forward_request loads nm proxy reply).1 = some (s ++ "\n")) ∧
    (∀ (loads : String → Except String Json) (nm : NodeManager) (proxy : Node)
        (reply : ForwardReply),
      pyTruthyStr (forward_request loads nm proxy reply).1 = true) ∧
    (∀ (loads : String → Except String Json) (lb : LoadBalancer) (data : String)
        (replies : String → Node → ForwardReply) (proxy : Node) (lb1 : LoadBalancer),
      pyStrip data ≠ "METRICS" →
      lb.pick_proxy = .ok (some proxy, lb1) →
      lb.handle_client loads data replies =
        .ok ((forward_request loads lb1.node_manager proxy
                (replies (pyStrip data ++ "\n") proxy)).1.getD "",
             { lb1 with node_manager :=
                (forward_request loads lb1.node_manager proxy
                  (replies (pyStrip data ++ "\n") proxy)).2 })) := by
  refine ⟨forward_request_ret, forward_request_truthy, ?_⟩
  intro loads lb data replies proxy lb1 hM hpick
  have ht := forward_request_truthy loads lb1.node_manager proxy
    (replies (pyStrip data ++ "\n") proxy)
  simp only [LoadBalancer.handle_client, hpick]
  rw [if_neg hM, if_pos ht]

/-- C10 witness: a one-proxy round-robin balancer, a `GET` request and a
proxy that closes the connection without replying — the client is sent
exactly `forward_request`'s (truthy) result. -/
theorem C10_witness :
    (pyStrip "GET a/b" ≠ "METRICS") ∧
    (LoadBalancer.handle_client (fun _ => .error "invalid")
      (LoadBalancer.init [("h1", 9001)] "round_robin") "GET a/b"
      (fun _ _ => .eof) =
      .ok ((forward_request (fun _ => .error "invalid")
              (NodeManager.init [("h1", 9001)]) ("h1", 9001) .eof).1.getD "",
           { (⟨[("h1", 9001)], NodeManager.init [("h1", 9001)], fun _ => none, 1,
               "round_robin"⟩ : LoadBalancer) with
             node_manager :=
               (forward_request (fun _ => .error "invalid")
                 (NodeManager.init [("h1", 9001)]) ("h1", 9001) .eof).2 })) := by
  constructor
  · decide
  · exact C10_forward_request_always_truthy.2.2 (fun _ => .error "invalid")
      (LoadBalancer.init [("h1", 9001)] "round_robin") "GET a/b"
      (fun _ _ => .eof) ("h1", 9001)
      ⟨[("h1", 9001)], NodeManager.init [("h1", 9001)], fun _ => none, 1, "round_robin"⟩
      (by decide) rfl

lemma fetch_from_origin_status (reply : OriginReply) (v : Json) (st : String)
    (h : fetch_from_origin reply = .ok (v, st)) :
    st = "OK" ∨ st = "NOT_FOUND" ∨ st = "ORIGIN_FAILURE" := by
  cases reply with
  | connectFail =>
      simp [fetch_from_origin] at h
      exact Or.inr (Or.inr h.2.symm)
  | emptyLine =>
      simp [fetch_from_origin] at h
      exact Or.inr (Or.inr h.2.symm)
  | parseFail =>
      simp [fetch_from_origin] at h
      exact Or.inr (Or.inr h.2.symm)
  | parsed j =>
      simp only [fetch_from_origin] at h
      cases hsub : j.subscript "status" with
      | error e =>
          rw [hsub] at h
          simp [bind, Except.bind] at h
      | ok stj =>
          rw [hsub] at h
          simp only [bind, Except.bind] at h
          cases stj with
          | str s =>
              dsimp only at h
              by_cases h1 : s = "OK"
              · rw [if_pos h1] at h
                cases hd : j.subscript "data" with
                | error e =>
                    rw [hd] at h
                    simp [bind, Except.bind] at h
                | ok d =>
                    rw [hd] at h
                    simp [bind, Except.bind, pure, Except.pure] at h
                    exact Or.inl h.2.symm
              · rw [if_neg h1] at h
                by_cases h2 : s = "NOT_FOUND"
                · rw [if_pos h2] at h
                  simp [pure, Except.pure] at h
                  exact Or.inr (Or.inl h.2.symm)
                · rw [if_neg h2] at h
                  simp [pure, Except.pure] at h
                  exact Or.inr (Or.inr h.2.symm)
          | null =>
              dsimp only at h
              simp [pure, Except.pure] at h
              exact Or.inr (Or.inr h.2.symm)
          | bool b =>
              dsimp only at h
              simp [pure, Except.pure] at h
              exact Or.inr (Or.inr h.2.symm)
          | num q =>
              dsimp only at h
              simp [pure, Except.pure] at h
              exact Or.inr (Or.inr h.2.symm)
          | arr elems =>
              dsimp only at h
              simp [pure, Except.pure] at h
              exact Or.inr (Or.inr h.2.symm)
          | obj fs =>
              dsimp only at h
              simp [pure, Except.pure] at h
              exact Or.inr (Or.inr h.2.symm)

/-- C5: on every request whose line splits as `GET <resource>/<key>` (a
well-formed GET), `handle_connection` increments `total_requests` by one
and then exactly one of `cache_hits` (on a hit, leaving `origin_fetches`
unchanged) or `cache_misses` (on a miss, incrementing `origin_fetches` as
well, whatever the origin fetch outcome); and on every request answered
`BAD_REQUEST` or `WRONG_METHOD: …`, all four counters are unchanged. -/
theorem C5_handle_connection_counter_updates {σ : Type} (ops : CacheOps σ)
    (port : Nat) (m : ProxyMetrics) (cache : σ) (data : String)
    (reply : OriginReply) :
    (∀ url : String, pySplit data ' ' = ["GET", url] →
      2 ≤ (pySplit url '/').length →
      ((handle_connection ops port m cache data reply).1.total_requests =
          m.total_requests + 1 ∧
        (((handle_connection ops port m cache data reply).1.cache_hits =
            m.cache_hits + 1 ∧
          (handle_connection ops port m cache data reply).1.cache_misses =
            m.cache_misses ∧
          (handle_connection ops port m cache data reply).1.origin_fetches =
            m.origin_fetches) ∨
         ((handle_connection ops port m cache data reply).1.cache_misses =
            m.cache_misses + 1 ∧
          (handle_connection ops port m cache data reply).1.cache_hits =
            m.cache_hits ∧
          (handle_connection ops port m cache data reply).1.origin_fetches =
            m.origin_fetches + 1)))) ∧
    (∀ r : Json, (handle_connection ops port m cache data reply).2.2 = .ok r →
      (∃ v : String, r.subscript "status" = .ok (.str v) ∧
        (v = "BAD_REQUEST" ∨ pyStartsWith v "WRONG_METHOD" = true)) →
      (handle_connection ops port m cache data reply).1 = m) := by
  constructor
  · intro url hs hu
    have hmet : data ≠ "METRICS" := by
      intro h
      rw [h, show pySplit "METRICS" ' ' = ["METRICS"] from rfl] at hs
      injection hs with h1 _
      exact absurd h1 (by decide)
    obtain ⟨a, b, t, hsp⟩ : ∃ a b t, pySplit url '/' = a :: b :: t := by
      cases h1 : pySplit url '/' with
      | nil =>
          rw [h1] at hu
          simp at hu
      | cons a rest =>
          cases rest with
          | nil =>
              rw [h1] at hu
              simp at hu
          | cons b t => exact ⟨a, b, t, rfl⟩
    simp only [handle_connection, if_neg hmet, hs, pyUnpack2, pySplitOnce, hsp,
      List.isEmpty_cons, ne_eq, not_true_eq_false, if_false, Bool.false_eq_true,
      ite_false]
    cases hfound : (ops.get cache (build_cache_key a (joinSep '/' (b :: t)))).1.2 with
    | true =>
        simp only [hfound, if_true, ite_true]
        exact ⟨rfl, Or.inl ⟨rfl, rfl, rfl⟩⟩
    | false =>
        simp only [hfound, Bool.false_eq_true, if_false, ite_false]
        cases hf : fetch_from_origin reply with
        | error e => exact ⟨rfl, Or.inr ⟨rfl, rfl, rfl⟩⟩
        | ok p =>
            obtain ⟨value, status⟩ := p
            exact ⟨rfl, Or.inr ⟨rfl, rfl, rfl⟩⟩
  · intro r hr hst
    by_cases hmet : data = "METRICS"
    · simp [handle_connection, hmet]
    · cases hu2 : pyUnpack2 (pySplit data ' ') with
      | error e => simp [handle_connection, hmet, hu2]
      | ok p =>
          obtain ⟨method, url⟩ := p
          by_cases hm : method = "GET"
          · subst hm
            cases hu3 : pyUnpack2 (pySplitOnce url '/') with
            | error e => simp [handle_connection, hmet, hu2, hu3]
            | ok p2 =>
                obtain ⟨resource, key⟩ := p2
                exfalso
                obtain ⟨v, hv, hor⟩ := hst
                simp only [handle_connection, if_neg hmet, hu2, hu3, ne_eq,
                  not_true_eq_false, if_false, Bool.false_eq_true, ite_false] at hr
                cases hfound : (ops.get cache (build_cache_key resource key)).1.2 with
                | true =>
                    rw [hfound] at hr
                    simp only [if_true, ite_true] at hr
                    injection hr with hr1
                    rw [← hr1] at hv
                    simp only [build_response, Json.subscript, List.lookup] at hv
                    have hv2 : v = "OK" := by
                      simp at hv
                      exact hv.symm
                    rw [hv2] at hor
                    rcases hor with h | h
                    · exact absurd h (by decide)
                    · exact absurd h (by decide)
                | false =>
                    rw [hfound] at hr
                    simp only [Bool.false_eq_true, if_false, ite_false] at hr
                    cases hf : fetch_from_origin reply with
                    | error e =>
                        rw [hf] at hr
                        simp at hr
                    | ok p3 =>
                        obtain ⟨value, status⟩ := p3
                        rw [hf] at hr
                        simp only [] at hr
                        injection hr with hr1
                        rw [← hr1] at hv
                        simp only [build_response, Json.subscript, List.lookup] at hv
                        have hv2 : v = status := by
                          simp at hv
                          exact hv.symm
                        rcases fetch_from_origin_status reply value status hf with
                          h3 | h3 | h3 <;> rw [hv2, h3] at hor <;>
                          rcases hor with h | h <;> exact absurd h (by decide)
          · simp [handle_connection, hmet, hu2, hm]

/-- C5 witness: the request `GET a/b` is well-formed; with a trivial cache
(always missing) and an unreachable origin, `total_requests` goes from 0
to 1, the miss and origin-fetch counters are each incremented once and the
hit counter is unchanged. -/
theorem C5_witness :
    (pySplit "GET a/b" ' ' = ["GET", "a/b"]) ∧
    (2 ≤ (pySplit "a/b" '/').length) ∧
    ((handle_connection ⟨fun c _ => ((Json.null, false), c), fun c _ _ => c⟩ 9001
        (ProxyMetrics.init "t") () "GET a/b" .connectFail).1.total_requests =
      (ProxyMetrics.init "t").total_requests + 1) ∧
    ((handle_connection ⟨fun c _ => ((Json.null, false), c), fun c _ _ => c⟩ 9001
        (ProxyMetrics.init "t") () "GET a/b" .connectFail).1.cache_misses =
      (ProxyMetrics.init "t").cache_misses + 1) := by
  have h := (C5_handle_connection_counter_updates
    (σ := Unit) ⟨fun c _ => ((Json.null, false), c), fun c _ _ => c⟩ 9001
    (ProxyMetrics.init "t") () "GET a/b" .connectFail).1 "a/b" rfl (by decide)
  refine ⟨rfl, by decide, h.1, ?_⟩
  rcases h.2 with ⟨hh, _, _⟩ | ⟨hm, _, _⟩
  · exact absurd hh (by decide)
  · exact hm

end DistProxy
